import Mathlib

/-!
Verification development for the Enhanced PowerPoint MCP Server
(`enhanced_ppt_server.py`): a shallow embedding of its text-substitution,
slide-duplication, color-parsing and template-discovery logic, with
theorems settling the specification's claims.

Python strings are modelled as `List Char` (`PyStr`); `str.lower` as a
character-wise `Char.toLower` map, `str.strip` as dropping whitespace at
both ends, and `needle in hay` as boolean infix search.  Presentations are
lists of slides; a slide is a layout id plus a list of shapes; a shape
carries a `has_text_frame` flag, its full text, and one font record per
paragraph.  The python-pptx document store is external to the repository;
following the specification's collaborator boundary, `add_slide` yields a
fresh empty slide with the requested layout, assigning `text_frame.text`
splits the value into one paragraph per newline-separated line, and the
per-shape `deepcopy` failures of slide duplication are abstracted by a
`copyOk` oracle.
-/

namespace PPT

/-- Python strings, modelled as explicit character lists. -/
abbrev PyStr := List Char

/-- Coerce a Lean string literal to the `PyStr` model. -/
def pyOf (s : String) : PyStr := s.toList

/-- Models Python `str.lower()` (character-wise lowering). -/
def pyLower (s : PyStr) : PyStr := s.map Char.toLower

/-- Models Python `str.strip()`: drop whitespace from both ends. -/
def pyStrip (s : PyStr) : PyStr :=
  ((s.dropWhile Char.isWhitespace).reverse.dropWhile Char.isWhitespace).reverse

/-- Boolean infix test on character lists: models Python `needle in hay`. -/
def listIsInfix (needle : PyStr) : PyStr → Bool
  | [] => needle.isEmpty
  | c :: rest => needle.isPrefixOf (c :: rest) || listIsInfix needle rest

/-- `containsSub hay needle` models Python `needle in hay`. -/
def containsSub (hay needle : PyStr) : Bool := listIsInfix needle hay

/-- One paragraph's font attributes (name and point size). -/
structure Para where
  fontName : Option String
  fontSize : Option Nat
deriving DecidableEq

/-- A shape on a slide: `has_text_frame`, its full text, and its paragraphs. -/
structure Shape where
  hasTextFrame : Bool
  text : PyStr
  paras : List Para
deriving DecidableEq

/-- A slide: the layout it was created from, and its shapes in order. -/
structure Slide where
  layoutId : Nat
  shapes : List Shape
deriving DecidableEq

/-- Split a text at newline characters: assigning `text_frame.text = v`
in python-pptx creates one paragraph per line of `v`. -/
def splitOnNl : PyStr → List PyStr
  | [] => [[]]
  | c :: rest =>
    let r := splitOnNl rest
    if c = '\n' then [] :: r
    else
      match r with
      | [] => [[c]]
      | h :: t => (c :: h) :: t

/-- Models `shape.text_frame.text = v`: replaces the full text and resets
the paragraph list to one fresh (unstyled) paragraph per line of `v`. -/
def setFrameText (s : Shape) (v : PyStr) : Shape :=
  { s with text := v, paras := (splitOnNl v).map (fun _ => ⟨none, none⟩) }

/-- Models the `for paragraph in shape.text_frame.paragraphs` loop that sets
`paragraph.font.name = "Pretendard"` and `paragraph.font.size = Pt size`. -/
def setAllParaFonts (s : Shape) (size : Nat) : Shape :=
  { s with paras := s.paras.map (fun _ => ⟨some "Pretendard", some size⟩) }

/-- The combined rewrite each substitution branch performs: assign the text
then restyle every paragraph to Pretendard at the given size. -/
def rewriteShape (s : Shape) (v : PyStr) (size : Nat) : Shape :=
  setAllParaFonts (setFrameText s v) size

/-- The specification's placeholder tag. -/
inductive PlaceholderKind
  | Chapter
  | Title
  | Contents
  | Unclassified
deriving DecidableEq

/-- The primary keyword classifier (spec 4.2): the keyword tests of
`update_presentation_with_smart_text`, applied to `text.strip().lower()`
in the fixed priority order Chapter, Title, Contents. -/
def classify (raw : PyStr) : PlaceholderKind :=
  let text := pyLower (pyStrip raw)
  if containsSub text (pyOf "chapter") || containsSub text (pyOf "chap") then .Chapter
  else if containsSub text (pyOf "title") then .Title
  else if containsSub text (pyOf "contents") || containsSub text (pyOf "content") then .Contents
  else .Unclassified

/-- Per-shape step of `update_presentation_with_smart_text`
(enhanced_ppt_server.py lines 140-171): classification conditions test only
the text; each branch then rewrites only when its replacement is non-empty
(Python truthiness of the string). -/
def updateShapeSmart (chapter_text title_text contents_text : PyStr) (s : Shape) : Shape × Nat :=
  if s.hasTextFrame then
    let text := pyLower (pyStrip s.text)
    if containsSub text (pyOf "chapter") || containsSub text (pyOf "chap") then
      if chapter_text ≠ [] then (rewriteShape s chapter_text 18, 1) else (s, 0)
    else if containsSub text (pyOf "title") then
      if title_text ≠ [] then (rewriteShape s title_text 24, 1) else (s, 0)
    else if containsSub text (pyOf "contents") || containsSub text (pyOf "content") then
      if contents_text ≠ [] then (rewriteShape s contents_text 14, 1) else (s, 0)
    else (s, 0)
  else (s, 0)

/-- Fold `updateShapeSmart` over a slide's shapes, summing modified counts. -/
def updateShapesSmart (c t k : PyStr) : List Shape → List Shape × Nat
  | [] => ([], 0)
  | s :: rest =>
    let p := updateShapeSmart c t k s
    let q := updateShapesSmart c t k rest
    (p.1 :: q.1, p.2 + q.2)

/-- Fold the smart update over every slide of the presentation. -/
def updateSlidesSmart (c t k : PyStr) : List Slide → List Slide × Nat
  | [] => ([], 0)
  | sl :: rest =>
    let p := updateShapesSmart c t k sl.shapes
    let q := updateSlidesSmart c t k rest
    ({ sl with shapes := p.1 } :: q.1, p.2 + q.2)

/-- Result dictionary of `update_presentation_with_smart_text`. -/
structure SmartResult where
  status : String
  modified_count : Nat
  error_message : Option String
deriving DecidableEq

/-- `update_presentation_with_smart_text(presentation, chapter, title, contents)`
(lines 134-183): walks every slide and shape; in the embedding no step can
raise, so the result is always the success dictionary. -/
def update_presentation_with_smart_text (slides : List Slide)
    (chapter_text title_text contents_text : PyStr) : List Slide × SmartResult :=
  let p := updateSlidesSmart chapter_text title_text contents_text slides
  (p.1, { status := "success", modified_count := p.2, error_message := none })

/-- Per-shape step of `update_specific_slide_text` (lines 886-916).  Unlike
`updateShapeSmart`, each keyword test is conjoined with non-emptiness of its
own replacement (`if any(...) and chapter:`), so an empty replacement lets
the shape fall through to the next branch. -/
def updateShapeSpecific (chapter title contents : PyStr) (s : Shape) : Shape × Nat :=
  if s.hasTextFrame then
    let text := pyLower (pyStrip s.text)
    if (containsSub text (pyOf "chapter") || containsSub text (pyOf "chap")) && !chapter.isEmpty then
      (rewriteShape s chapter 18, 1)
    else if containsSub text (pyOf "title") && !title.isEmpty then
      (rewriteShape s title 24, 1)
    else if (containsSub text (pyOf "contents") || containsSub text (pyOf "content")) && !contents.isEmpty then
      (rewriteShape s contents 14, 1)
    else (s, 0)
  else (s, 0)

/-- Fold `updateShapeSpecific` over a slide's shapes. -/
def updateShapesSpecific (c t k : PyStr) : List Shape → List Shape × Nat
  | [] => ([], 0)
  | s :: rest =>
    let p := updateShapeSpecific c t k s
    let q := updateShapesSpecific c t k rest
    (p.1 :: q.1, p.2 + q.2)

/-- `update_specific_slide_text(slide_number, chapter, title, contents)`
(lines 871-926): validates the 1-based index against the open presentation,
then updates only that slide's shapes; returns the updated presentation and
the user-facing message. -/
def update_specific_slide_text (slides : List Slide) (slide_number : Int)
    (chapter title contents : PyStr) : List Slide × String :=
  if slide_number < 1 ∨ slide_number > (slides.length : Int) then
    (slides, "Invalid slide number. Presentation has " ++ toString slides.length ++ " slides.")
  else
    let i := (slide_number - 1).toNat
    let sl := slides.getD i ⟨0, []⟩
    let p := updateShapesSpecific chapter title contents sl.shapes
    (slides.set i { sl with shapes := p.1 },
     "Slide " ++ toString slide_number ++ " updated successfully! Modified elements: "
       ++ toString p.2)

/-- Per-shape step of the post-copy update pass inside `duplicate_slide`
(lines 520-548): text is lowered but not stripped, each branch requires its
replacement non-empty first, and Title and Contents have the length-based
fallbacks `len(text) < 50` and `len(text) > 50`. -/
def updateShapeDup (new_title new_content new_chapter : PyStr) (s : Shape) : Shape × Nat :=
  if s.hasTextFrame then
    let text := pyLower s.text
    if !new_chapter.isEmpty && (containsSub text (pyOf "chapter") || containsSub text (pyOf "chap")) then
      (rewriteShape s new_chapter 18, 1)
    else if !new_title.isEmpty && (containsSub text (pyOf "title") || text.length < 50) then
      (rewriteShape s new_title 24, 1)
    else if !new_content.isEmpty && (containsSub text (pyOf "content") || text.length > 50) then
      (rewriteShape s new_content 14, 1)
    else (s, 0)
  else (s, 0)

/-- Fold `updateShapeDup` over the new slide's shapes. -/
def updateShapesDup (t c ch : PyStr) : List Shape → List Shape × Nat
  | [] => ([], 0)
  | s :: rest =>
    let p := updateShapeDup t c ch s
    let q := updateShapesDup t c ch rest
    (p.1 :: q.1, p.2 + q.2)

/-- `duplicate_slide(slide_number, new_title, new_content, new_chapter)`
(lines 477-554).  `copyOk` abstracts which shapes the per-shape
`deepcopy`/insert succeeds on; a failing shape is skipped (logged) and the
duplication continues.  `add_slide(layout)` of the external document store
is modelled as appending a fresh slide with the source's layout, per the
specification's collaborator boundary.  The update pass and the message
suffix run only when some replacement is non-empty. -/
def duplicate_slide (copyOk : Shape → Bool) (slides : List Slide) (slide_number : Int)
    (new_title new_content new_chapter : PyStr) : List Slide × String :=
  if slide_number < 1 ∨ slide_number > (slides.length : Int) then
    (slides, "Invalid slide number. Must be between 1 and " ++ toString slides.length)
  else
    let source_slide := slides.getD (slide_number - 1).toNat ⟨0, []⟩
    let copied := source_slide.shapes.filter copyOk
    let slide_count := slides.length + 1
    let base := "Successfully duplicated slide " ++ toString slide_number
      ++ " -> slide " ++ toString slide_count
    if !new_title.isEmpty || !new_content.isEmpty || !new_chapter.isEmpty then
      let p := updateShapesDup new_title new_content new_chapter copied
      (slides ++ [{ layoutId := source_slide.layoutId, shapes := p.1 }],
       base ++ " with " ++ toString p.2 ++ " text elements updated")
    else
      (slides ++ [{ layoutId := source_slide.layoutId, shapes := copied }], base)

/-- Hex-digit test for one character of a Python `int(s, 16)` argument:
0-9 (codes 48-57), a-f (97-102) or A-F (65-70). -/
def isHexDigitChar (c : Char) : Bool :=
  (48 ≤ c.toNat && c.toNat ≤ 57) || (97 ≤ c.toNat && c.toNat ≤ 102)
    || (65 ≤ c.toNat && c.toNat ≤ 70)

/-- Value of a hex digit character. -/
def hexDigitVal (c : Char) : Nat :=
  if 48 ≤ c.toNat ∧ c.toNat ≤ 57 then c.toNat - 48
  else if 97 ≤ c.toNat then c.toNat - 87
  else c.toNat - 55

/-- Value of one hex digit of a Python `int(s, 16)` argument, `none` for a
non-hex character. -/
def hexVal? (c : Char) : Option Nat :=
  if isHexDigitChar c then some (hexDigitVal c) else none

/-- Remaining hex digits after the first, allowing a single `_` between
two digits (Python's digit-group underscores: `int("1_2", 16) = 18`, while
a leading, trailing or doubled underscore raises ValueError). -/
def hexTail (acc : Nat) : PyStr → Option Nat
  | [] => some acc
  | c :: rest =>
    if c = '_' then
      match rest with
      | c2 :: rest2 =>
        match hexVal? c2 with
        | some v => hexTail (16 * acc + v) rest2
        | none => none
      | [] => none
    else
      match hexVal? c with
      | some v => hexTail (16 * acc + v) rest
      | none => none

/-- At least one hex digit, then `hexTail`. -/
def hexDigits : PyStr → Option Nat
  | [] => none
  | c :: rest =>
    match hexVal? c with
    | some v => hexTail v rest
    | none => none

/-- Optional leading sign of a Python int literal. -/
def stripSign (t : PyStr) : Int × PyStr :=
  match t with
  | [] => (1, [])
  | c :: rest =>
    if c = '+' then (1, rest)
    else if c = '-' then (-1, rest)
    else (1, c :: rest)

/-- Optional `0x`/`0X` prefix of a Python base-16 int literal, which may
be followed by one underscore (`int("0x_1f", 16) = 31`). -/
def stripHexPrefix (t : PyStr) : PyStr :=
  match t with
  | c0 :: c1 :: rest =>
    if c0 = '0' ∧ (c1 = 'x' ∨ c1 = 'X') then
      match rest with
      | c2 :: rest2 => if c2 = '_' then rest2 else rest
      | [] => []
    else t
  | _ => t

/-- Models Python `int(s, 16)`: surrounding whitespace is stripped, then
an optional sign, an optional `0x`/`0X` prefix and a non-empty run of hex
digits with single digit-group underscores are accepted (`int('+E', 16) =
14`, `int(' 1', 16) = 1`, `int('-f', 16) = -15`); anything else raises
ValueError, modelled as `none`.  Character classes are the ASCII ones
(0-9/a-f/A-F digits; space, tab, CR, LF whitespace); Python additionally
accepts a few rarer Unicode digit and space characters. -/
def pyIntHex (s : PyStr) : Option Int :=
  let p := stripSign (pyStrip s)
  match hexDigits (stripHexPrefix p.2) with
  | some v => some (p.1 * (v : Int))
  | none => none

/-- Python slice `s[a:b]` for `a ≤ b` on our string model. -/
def pySlice (s : PyStr) (a b : Nat) : PyStr := (s.drop a).take (b - a)

/-- Models `color_str.startswith('#')` followed by `color_str[1:]`. -/
def stripHash : PyStr → PyStr
  | '#' :: rest => rest
  | s => s

/-- Modelled from the documented contract of the external python-pptx
`RGBColor(r, g, b)` value object: it takes three integer values 0-255 and
raises ValueError otherwise. -/
def RGBColorNew (r g b : Int) : Option (Int × Int × Int) :=
  if 0 ≤ r ∧ r ≤ 255 ∧ 0 ≤ g ∧ g ≤ 255 ∧ 0 ≤ b ∧ b ≤ 255 then some (r, g, b) else none

/-- `parse_notion_color(color_str)` (lines 373-382): drop one leading `#`,
decode the slices `[0:2]`, `[2:4]`, `[4:6]` with `int(_, 16)`, and build
the color; `none` models the ValueError raised by `int` on a slice without
digits or by `RGBColor` on an out-of-range channel. -/
def parse_notion_color (color_str : PyStr) : Option (Int × Int × Int) :=
  let cs := stripHash color_str
  match pyIntHex (pySlice cs 0 2), pyIntHex (pySlice cs 2 4), pyIntHex (pySlice cs 4 6) with
  | some r, some g, some b => RGBColorNew r g b
  | _, _, _ => none

/-- A template file found in a search directory: filename stem and suffix. -/
structure TemplateFile where
  stem : String
  ext : String
deriving DecidableEq

/-- One configured search location (`TEMPLATE_PATHS` entry): its registry
key, its directory path, whether `path.exists()`, and the files it holds. -/
structure Location where
  locName : String
  dirPath : String
  present : Bool
  files : List TemplateFile
deriving DecidableEq

/-- One `template_registry` value. -/
structure TemplateEntry where
  path : String
  location : String
  name : String
  extension : String
deriving DecidableEq

/-- The registry dictionary: stem to entry. -/
abbrev Registry := String → Option TemplateEntry

/-- Python dict assignment `registry[k] = v`. -/
def insertTemplate (r : Registry) (k : String) (v : TemplateEntry) : Registry :=
  fun k' => if k' = k then some v else r k'

/-- `list(path.glob("*.pptx")) + list(path.glob("*.potx"))`. -/
def globbed (loc : Location) : List TemplateFile :=
  loc.files.filter (fun f => f.ext = ".pptx") ++ loc.files.filter (fun f => f.ext = ".potx")

/-- The registry entry built for one discovered file (lines 111-116). -/
def entryFor (loc : Location) (f : TemplateFile) : TemplateEntry :=
  { path := loc.dirPath ++ "/" ++ f.stem ++ f.ext
    location := loc.locName
    name := f.stem
    extension := f.ext }

/-- Process one search location: skipped when its directory is absent,
otherwise every globbed file is inserted keyed by its stem. -/
def scanLocation (r : Registry) (loc : Location) : Registry :=
  if loc.present then
    (globbed loc).foldl (fun acc f => insertTemplate acc f.stem (entryFor loc f)) r
  else r

/-- `discover_templates()` (lines 101-118): reset the registry to empty,
then scan every configured location in order. -/
def discover_templates (fs : List Location) : Registry :=
  fs.foldl scanLocation (fun _ => none)

/-! ### Helper lemmas -/

lemma updateShapeSmart_noop (s : Shape) : updateShapeSmart [] [] [] s = (s, 0) := by
  simp [updateShapeSmart]

lemma updateShapesSmart_noop (l : List Shape) : updateShapesSmart [] [] [] l = (l, 0) := by
  induction l with
  | nil => rfl
  | cons s rest ih => simp [updateShapesSmart, updateShapeSmart_noop, ih]

lemma updateSlidesSmart_noop (l : List Slide) : updateSlidesSmart [] [] [] l = (l, 0) := by
  induction l with
  | nil => rfl
  | cons sl rest ih => simp [updateSlidesSmart, updateShapesSmart_noop, ih]

lemma updateShapesDup_length (t c ch : PyStr) (l : List Shape) :
    (updateShapesDup t c ch l).1.length = l.length := by
  induction l with
  | nil => rfl
  | cons s rest ih => simp [updateShapesDup, ih]

lemma length_filter_eq_sub (p : Shape → Bool) (l : List Shape) :
    (l.filter p).length = l.length - l.countP (fun a => !p a) := by
  have h : (l.filter p).length + l.countP (fun a => !p a) = l.length := by
    induction l with
    | nil => rfl
    | cons a rest ih =>
      by_cases hp : p a
      · simp [List.filter_cons, List.countP_cons, hp, ← ih]; omega
      · simp only [List.filter_cons, List.countP_cons, hp]
        simp only [Bool.not_false, if_true, if_false, cond]
        simp [← ih]; omega
  omega

lemma getD_append_singleton (l : List Slide) (x d : Slide) : (l ++ [x]).getD l.length d = x := by
  induction l with
  | nil => rfl
  | cons a rest ih => simp only [List.cons_append, List.length_cons, List.getD_cons_succ]; exact ih

/-! ### Claims -/

/-- C5 (confirmed): a text-bearing shape whose processed text
(`strip().lower()`, the engine's case-insensitive view) contains both
"chapter" and "title" is classified Chapter, never Title, by the primary
classifier; with non-empty chapter and title replacements, the
substitution engine rewrites it with the chapter value at 18pt. -/
theorem c5_classifier_priority (c t k : PyStr) (s : Shape)
    (hf : s.hasTextFrame = true)
    (hc : containsSub (pyLower (pyStrip s.text)) (pyOf "chapter") = true)
    (ht : containsSub (pyLower (pyStrip s.text)) (pyOf "title") = true)
    (hcne : c ≠ []) (htne : t ≠ []) :
    classify s.text = .Chapter ∧ updateShapeSmart c t k s = (rewriteShape s c 18, 1) := by
  refine ⟨?_, ?_⟩
  · simp [classify, hc]
  · simp [updateShapeSmart, hf, hc, hcne]

/-- Witness for `c5_classifier_priority` at shape text "Chapter Title". -/
theorem c5_witness :
    classify (pyOf "Chapter Title") = .Chapter
      ∧ updateShapeSmart (pyOf "A") (pyOf "B") []
          ⟨true, pyOf "Chapter Title", [⟨none, none⟩]⟩
        = (rewriteShape ⟨true, pyOf "Chapter Title", [⟨none, none⟩]⟩ (pyOf "A") 18, 1) :=
  c5_classifier_priority (pyOf "A") (pyOf "B") []
    ⟨true, pyOf "Chapter Title", [⟨none, none⟩]⟩
    rfl (by decide) (by decide) (by decide) (by decide)

/-- The one-slide demo deck of the end-to-end scenario: three text shapes
reading "Chapter X", "Title Here", "Contents Here". -/
def demoSlides : List Slide :=
  [⟨0, [⟨true, pyOf "Chapter X", [⟨some "Arial", some 32⟩]⟩,
        ⟨true, pyOf "Title Here", [⟨some "Arial", some 32⟩]⟩,
        ⟨true, pyOf "Contents Here", [⟨some "Arial", some 32⟩]⟩]⟩]

/-- C6 (confirmed): substitution with chapter="Intro", title="Overview",
contents="" on the demo deck yields modified_count = 2, rewrites the first
shape to "Intro" with every paragraph at 18pt, the second to "Overview" at
24pt, and leaves the third shape unchanged as "Contents Here". -/
theorem c6_scenario :
    update_presentation_with_smart_text demoSlides (pyOf "Intro") (pyOf "Overview") []
      = ([⟨0, [⟨true, pyOf "Intro", [⟨some "Pretendard", some 18⟩]⟩,
               ⟨true, pyOf "Overview", [⟨some "Pretendard", some 24⟩]⟩,
               ⟨true, pyOf "Contents Here", [⟨some "Arial", some 32⟩]⟩]⟩],
         { status := "success", modified_count := 2, error_message := none }) := by
  decide

/-- C7 (confirmed): running the substitution engine with all three
replacement fields empty returns every slide, shape, text and paragraph
font unchanged, with modified_count = 0 and success status. -/
theorem c7_noop_substitution (slides : List Slide) :
    update_presentation_with_smart_text slides [] [] []
      = (slides, { status := "success", modified_count := 0, error_message := none }) := by
  simp [update_presentation_with_smart_text, updateSlidesSmart_noop]

/-- C1 counterexample: in `update_specific_slide_text`, a shape reading
"Chapter Title" with an empty chapter replacement and title replacement
"New Title" is NOT left untouched — it is rewritten with the title value at
24pt, because the per-slide function conjoins each keyword test with its
replacement's non-emptiness instead of classifying first. -/
theorem c1_counterexample :
    (update_specific_slide_text [⟨0, [⟨true, pyOf "Chapter Title", [⟨none, none⟩]⟩]⟩]
        1 [] (pyOf "New Title") []).1
      = [⟨0, [⟨true, pyOf "New Title", [⟨some "Pretendard", some 24⟩]⟩]⟩]
    ∧ (update_specific_slide_text [⟨0, [⟨true, pyOf "Chapter Title", [⟨none, none⟩]⟩]⟩]
        1 [] (pyOf "New Title") []).1
      ≠ [⟨0, [⟨true, pyOf "Chapter Title", [⟨none, none⟩]⟩]⟩] := by
  constructor
  · decide
  · decide

/-- C1 amended: the whole-document engine classifies a shape from its text
first and only then checks the replacement, so a chapter-keyword shape with
an empty chapter replacement is left untouched even when its text also
contains "title" and a non-empty title replacement is supplied; the
per-slide function instead conjoins each keyword test with non-emptiness of
its own replacement, so the same shape falls through the chapter branch and
is rewritten with the title value at 24pt. -/
theorem c1_amended (t k : PyStr) (s : Shape)
    (hf : s.hasTextFrame = true)
    (hkw : (containsSub (pyLower (pyStrip s.text)) (pyOf "chapter")
        || containsSub (pyLower (pyStrip s.text)) (pyOf "chap")) = true)
    (ht : containsSub (pyLower (pyStrip s.text)) (pyOf "title") = true)
    (htne : t ≠ []) :
    updateShapeSmart [] t k s = (s, 0)
      ∧ updateShapeSpecific [] t k s = (rewriteShape s t 24, 1) := by
  have htne' : t.isEmpty = false := by
    cases t with
    | nil => exact absurd rfl htne
    | cons a l => rfl
  refine ⟨?_, ?_⟩
  · simp [updateShapeSmart, hf, hkw]
  · simp [updateShapeSpecific, hf, hkw, ht, htne']

/-- Witness for `c1_amended` at shape text "Chapter Title". -/
theorem c1_witness :
    updateShapeSmart [] (pyOf "New Title") [] ⟨true, pyOf "Chapter Title", [⟨none, none⟩]⟩
      = (⟨true, pyOf "Chapter Title", [⟨none, none⟩]⟩, 0)
    ∧ updateShapeSpecific [] (pyOf "New Title") [] ⟨true, pyOf "Chapter Title", [⟨none, none⟩]⟩
      = (rewriteShape ⟨true, pyOf "Chapter Title", [⟨none, none⟩]⟩ (pyOf "New Title") 24, 1) :=
  c1_amended (pyOf "New Title") [] ⟨true, pyOf "Chapter Title", [⟨none, none⟩]⟩
    rfl (by decide) (by decide) (by decide)

/-- A 50-character keyword-free shape text: fifty letters "x". -/
def fiftyX : PyStr := pyOf "xxxxxxxxxxxxxxxxxxxxxxxxxxxxxxxxxxxxxxxxxxxxxxxxxx"

/-- C2 counterexample: duplicating a slide whose only shape holds exactly
50 keyword-free characters, with a non-empty content replacement, leaves
the copied shape unchanged and reports 0 updated elements — the content
branch requires `len(text) > 50`, strictly, so a 50-character shape is not
classified Contents. -/
theorem c2_counterexample :
    fiftyX.length = 50
    ∧ containsSub (pyLower fiftyX) (pyOf "chap") = false
    ∧ containsSub (pyLower fiftyX) (pyOf "title") = false
    ∧ containsSub (pyLower fiftyX) (pyOf "content") = false
    ∧ duplicate_slide (fun _ => true) [⟨0, [⟨true, fiftyX, [⟨none, none⟩]⟩]⟩]
        1 [] (pyOf "NEW") []
      = ([⟨0, [⟨true, fiftyX, [⟨none, none⟩]⟩]⟩, ⟨0, [⟨true, fiftyX, [⟨none, none⟩]⟩]⟩],
         "Successfully duplicated slide 1 -> slide 2 with 0 text elements updated") := by
  refine ⟨by decide, by decide, by decide, by decide, by decide⟩

/-- C2 amended: the duplication pass classifies a copied shape from its
lowered text as Chapter when the chapter replacement is non-empty and the
text contains "chapter"/"chap"; otherwise as Title when the title
replacement is non-empty and the text contains "title" or is shorter than
50 characters; otherwise as Contents when the content replacement is
non-empty and the text contains "content" or is STRICTLY LONGER than 50
characters.  A keyword-free shape of exactly 50 characters therefore
matches no branch and is left untouched, whatever replacements are
supplied. -/
theorem c2_amended (nt nc nch : PyStr) (s : Shape) (hf : s.hasTextFrame = true) :
    (nch.isEmpty = false →
        (containsSub (pyLower s.text) (pyOf "chapter")
          || containsSub (pyLower s.text) (pyOf "chap")) = true →
        updateShapeDup nt nc nch s = (rewriteShape s nch 18, 1))
    ∧ ((!nch.isEmpty && (containsSub (pyLower s.text) (pyOf "chapter")
          || containsSub (pyLower s.text) (pyOf "chap"))) = false →
        nt.isEmpty = false →
        (containsSub (pyLower s.text) (pyOf "title") = true ∨ (pyLower s.text).length < 50) →
        updateShapeDup nt nc nch s = (rewriteShape s nt 24, 1))
    ∧ ((!nch.isEmpty && (containsSub (pyLower s.text) (pyOf "chapter")
          || containsSub (pyLower s.text) (pyOf "chap"))) = false →
        (!nt.isEmpty && (containsSub (pyLower s.text) (pyOf "title")
          || decide ((pyLower s.text).length < 50))) = false →
        nc.isEmpty = false →
        (containsSub (pyLower s.text) (pyOf "content") = true ∨ (pyLower s.text).length > 50) →
        updateShapeDup nt nc nch s = (rewriteShape s nc 14, 1))
    ∧ ((pyLower s.text).length = 50 →
        containsSub (pyLower s.text) (pyOf "chapter") = false →
        containsSub (pyLower s.text) (pyOf "chap") = false →
        containsSub (pyLower s.text) (pyOf "title") = false →
        containsSub (pyLower s.text) (pyOf "content") = false →
        updateShapeDup nt nc nch s = (s, 0)) := by
  refine ⟨?_, ?_, ?_, ?_⟩
  · intro hne hkw
    simp [updateShapeDup, hf, hne, hkw]
  · intro h1 hne h2
    rcases h2 with h2 | h2 <;>
      simp [updateShapeDup, hf, h1, hne, h2]
  · intro h1 h2 hne h3
    rcases h3 with h3 | h3 <;>
      simp [updateShapeDup, hf, h1, h2, hne, h3]
  · intro hlen h1 h2 h3 h4
    simp [updateShapeDup, hf, h1, h2, h3, h4, hlen]

/-- Witness for `c2_amended`: the chapter branch fires on a
chapter-keyword shape, and the 50-character keyword-free shape is left
untouched. -/
theorem c2_witness :
    updateShapeDup (pyOf "T") (pyOf "C") (pyOf "Ch") ⟨true, pyOf "Chapter X", [⟨none, none⟩]⟩
      = (rewriteShape ⟨true, pyOf "Chapter X", [⟨none, none⟩]⟩ (pyOf "Ch") 18, 1)
    ∧ updateShapeDup (pyOf "T") (pyOf "C") [] ⟨true, fiftyX, [⟨none, none⟩]⟩
      = (⟨true, fiftyX, [⟨none, none⟩]⟩, 0) := by
  constructor
  · exact (c2_amended (pyOf "T") (pyOf "C") (pyOf "Ch")
      ⟨true, pyOf "Chapter X", [⟨none, none⟩]⟩ rfl).1 (by decide) (by decide)
  · exact (c2_amended (pyOf "T") (pyOf "C") [] ⟨true, fiftyX, [⟨none, none⟩]⟩ rfl).2.2.2
      (by decide) (by decide) (by decide) (by decide) (by decide)

/-- C3 (confirmed): for a valid source index, `duplicate_slide` grows the
presentation by exactly one slide, leaves every original slide unchanged
(the copies are structurally independent, so later rewrites of the new
slide cannot reach the source), and the appended slide's shape count is the
source slide's shape count minus the number of shapes whose copy failed
(was skipped with a warning). -/
theorem c3_duplication_invariant (copyOk : Shape → Bool) (slides : List Slide)
    (n : Int) (t c ch : PyStr) (h1 : 1 ≤ n) (h2 : n ≤ (slides.length : Int)) :
    (duplicate_slide copyOk slides n t c ch).1.length = slides.length + 1
    ∧ (duplicate_slide copyOk slides n t c ch).1.take slides.length = slides
    ∧ ((duplicate_slide copyOk slides n t c ch).1.getD slides.length ⟨0, []⟩).shapes.length
        = (slides.getD (n - 1).toNat ⟨0, []⟩).shapes.length
          - ((slides.getD (n - 1).toNat ⟨0, []⟩).shapes.countP fun s => !copyOk s) := by
  have hcond : ¬(n < 1 ∨ n > (slides.length : Int)) := by omega
  have htake : ∀ x : Slide, (slides ++ [x]).take slides.length = slides := by
    intro x
    exact List.take_left slides [x]
  simp only [duplicate_slide]
  rw [if_neg hcond]
  split
  · refine ⟨by simp, htake _, ?_⟩
    rw [getD_append_singleton]
    simp [updateShapesDup_length, length_filter_eq_sub]
  · refine ⟨by simp, htake _, ?_⟩
    rw [getD_append_singleton]
    simp [length_filter_eq_sub]

/-- Witness for `c3_duplication_invariant`: a one-slide deck whose slide
holds two shapes, one of which fails to copy. -/
theorem c3_witness :
    (duplicate_slide (fun s => s.hasTextFrame)
        [⟨7, [⟨true, pyOf "Title Here", [⟨none, none⟩]⟩, ⟨false, pyOf "Pic", []⟩]⟩]
        1 (pyOf "T") [] []).1.length = 2
    ∧ (duplicate_slide (fun s => s.hasTextFrame)
        [⟨7, [⟨true, pyOf "Title Here", [⟨none, none⟩]⟩, ⟨false, pyOf "Pic", []⟩]⟩]
        1 (pyOf "T") [] []).1.take 1
      = [⟨7, [⟨true, pyOf "Title Here", [⟨none, none⟩]⟩, ⟨false, pyOf "Pic", []⟩]⟩]
    ∧ ((duplicate_slide (fun s => s.hasTextFrame)
        [⟨7, [⟨true, pyOf "Title Here", [⟨none, none⟩]⟩, ⟨false, pyOf "Pic", []⟩]⟩]
        1 (pyOf "T") [] []).1.getD 1 ⟨0, []⟩).shapes.length = 1 :=
  c3_duplication_invariant (fun s => s.hasTextFrame)
    [⟨7, [⟨true, pyOf "Title Here", [⟨none, none⟩]⟩, ⟨false, pyOf "Pic", []⟩]⟩]
    1 (pyOf "T") [] [] (by decide) (by decide)

/-- C8 (confirmed): `duplicate_slide` with a source index outside
`1..slideCount` returns the presentation unchanged together with the error
message describing the valid range; no slide is added or modified. -/
theorem c8_out_of_range (copyOk : Shape → Bool) (slides : List Slide) (n : Int)
    (t c ch : PyStr) (h : n < 1 ∨ n > (slides.length : Int)) :
    duplicate_slide copyOk slides n t c ch
      = (slides, "Invalid slide number. Must be between 1 and " ++ toString slides.length) := by
  unfold duplicate_slide
  rw [if_pos h]

/-- Witness for `c8_out_of_range` at indices 0 and slideCount + 1. -/
theorem c8_witness :
    duplicate_slide (fun _ => true) [⟨0, []⟩] 0 [] [] []
      = ([⟨0, []⟩], "Invalid slide number. Must be between 1 and 1")
    ∧ duplicate_slide (fun _ => true) [⟨0, []⟩] 2 [] [] []
      = ([⟨0, []⟩], "Invalid slide number. Must be between 1 and 1") :=
  ⟨c8_out_of_range (fun _ => true) [⟨0, []⟩] 0 [] [] [] (by decide),
   c8_out_of_range (fun _ => true) [⟨0, []⟩] 2 [] [] [] (by decide)⟩

/-- C10 (confirmed): `duplicate_slide` with all three replacement values
empty skips the post-copy update pass entirely — the appended slide holds
exactly the successfully copied shapes, text and paragraph fonts verbatim,
and the result message carries no updated-elements report. -/
theorem c10_skip_update (copyOk : Shape → Bool) (slides : List Slide) (n : Int)
    (h1 : 1 ≤ n) (h2 : n ≤ (slides.length : Int)) :
    duplicate_slide copyOk slides n [] [] []
      = (slides ++ [{ layoutId := (slides.getD (n - 1).toNat ⟨0, []⟩).layoutId,
                      shapes := (slides.getD (n - 1).toNat ⟨0, []⟩).shapes.filter copyOk }],
         "Successfully duplicated slide " ++ toString n ++ " -> slide "
           ++ toString (slides.length + 1)) := by
  have hcond : ¬(n < 1 ∨ n > (slides.length : Int)) := by omega
  unfold duplicate_slide
  rw [if_neg hcond]
  simp

/-- Witness for `c10_skip_update`: one shape copies, one fails; the new
slide holds the surviving shape verbatim and no update is reported. -/
theorem c10_witness :
    duplicate_slide (fun s => s.hasTextFrame)
        [⟨7, [⟨true, pyOf "Title Here", [⟨some "Arial", some 32⟩]⟩, ⟨false, pyOf "Pic", []⟩]⟩]
        1 [] [] []
      = ([⟨7, [⟨true, pyOf "Title Here", [⟨some "Arial", some 32⟩]⟩, ⟨false, pyOf "Pic", []⟩]⟩,
          ⟨7, [⟨true, pyOf "Title Here", [⟨some "Arial", some 32⟩]⟩]⟩],
         "Successfully duplicated slide 1 -> slide 2") :=
  c10_skip_update (fun s => s.hasTextFrame)
    [⟨7, [⟨true, pyOf "Title Here", [⟨some "Arial", some 32⟩]⟩, ⟨false, pyOf "Pic", []⟩]⟩]
    1 (by decide) (by decide)

lemma hexDigitVal_lt_16 (c : Char) (h : isHexDigitChar c = true) : hexDigitVal c < 16 := by
  unfold isHexDigitChar at h
  unfold hexDigitVal
  simp only [Bool.or_eq_true, Bool.and_eq_true, decide_eq_true_eq] at h
  rcases h with (⟨h1, h2⟩ | ⟨h1, h2⟩) | ⟨h1, h2⟩ <;> split_ifs <;> omega

lemma hex_ne (c r : Char) (h : isHexDigitChar c = true) (hr : isHexDigitChar r = false) :
    c ≠ r := by
  intro hc
  rw [hc, hr] at h
  exact Bool.false_ne_true h

lemma hex_not_whitespace (c : Char) (h : isHexDigitChar c = true) : c.isWhitespace = false := by
  by_contra hw
  rw [Bool.not_eq_false] at hw
  simp only [Char.isWhitespace, Bool.or_eq_true, decide_eq_true_eq] at hw
  rcases hw with ((rfl | rfl) | rfl) | rfl <;> exact absurd h (by decide)

lemma pyStrip_pair (a b : Char) (ha : a.isWhitespace = false) (hb : b.isWhitespace = false) :
    pyStrip [a, b] = [a, b] := by
  simp [pyStrip, List.dropWhile_cons, ha, hb]

lemma pyIntHex_two_hex (a b : Char) (ha : isHexDigitChar a = true)
    (hb : isHexDigitChar b = true) :
    pyIntHex [a, b] = some ((16 * hexDigitVal a + hexDigitVal b : Nat) : Int) := by
  have hsign : stripSign [a, b] = (1, [a, b]) := by
    unfold stripSign
    dsimp only
    rw [if_neg (hex_ne a '+' ha (by decide)), if_neg (hex_ne a '-' ha (by decide))]
  have hpre : stripHexPrefix [a, b] = [a, b] := by
    have hnp : ¬(a = '0' ∧ (b = 'x' ∨ b = 'X')) := by
      rintro ⟨h0, hx | hx⟩
      · exact hex_ne b 'x' hb (by decide) hx
      · exact hex_ne b 'X' hb (by decide) hx
    unfold stripHexPrefix
    dsimp only
    rw [if_neg hnp]
  have hda : hexVal? a = some (hexDigitVal a) := by
    unfold hexVal?
    rw [if_pos ha]
  have hdb : hexVal? b = some (hexDigitVal b) := by
    unfold hexVal?
    rw [if_pos hb]
  have hdig : hexDigits [a, b] = some (16 * hexDigitVal a + hexDigitVal b) := by
    simp only [hexDigits, hda, hexTail, if_neg (hex_ne b '_' hb (by decide)), hdb]
  unfold pyIntHex
  rw [pyStrip_pair a b (hex_not_whitespace a ha) (hex_not_whitespace b hb), hsign]
  dsimp only
  rw [hpre, hdig]
  simp

lemma parse_stripped (s : PyStr) (a b c d e f : Char) (rest : PyStr)
    (hs : stripHash s = a :: b :: c :: d :: e :: f :: rest)
    (ha : isHexDigitChar a = true) (hb : isHexDigitChar b = true)
    (hc : isHexDigitChar c = true) (hd : isHexDigitChar d = true)
    (he : isHexDigitChar e = true) (hf : isHexDigitChar f = true) :
    parse_notion_color s
      = some (((16 * hexDigitVal a + hexDigitVal b : Nat) : Int),
          ((16 * hexDigitVal c + hexDigitVal d : Nat) : Int),
          ((16 * hexDigitVal e + hexDigitVal f : Nat) : Int)) := by
  have la := hexDigitVal_lt_16 a ha
  have lb := hexDigitVal_lt_16 b hb
  have lc := hexDigitVal_lt_16 c hc
  have ld := hexDigitVal_lt_16 d hd
  have le' := hexDigitVal_lt_16 e he
  have lf := hexDigitVal_lt_16 f hf
  unfold parse_notion_color
  rw [hs]
  dsimp only
  rw [show pySlice (a :: b :: c :: d :: e :: f :: rest) 0 2 = [a, b] from rfl,
      show pySlice (a :: b :: c :: d :: e :: f :: rest) 2 4 = [c, d] from rfl,
      show pySlice (a :: b :: c :: d :: e :: f :: rest) 4 6 = [e, f] from rfl,
      pyIntHex_two_hex a b ha hb, pyIntHex_two_hex c d hc hd, pyIntHex_two_hex e f he hf]
  dsimp only
  unfold RGBColorNew
  rw [if_pos (by omega)]

lemma pyIntHex_nil : pyIntHex [] = none := rfl

lemma parse_short (s : PyStr) (h : (stripHash s).length ≤ 4) : parse_notion_color s = none := by
  have h3 : pySlice (stripHash s) 4 6 = [] := by
    unfold pySlice
    rw [List.drop_eq_nil_of_le h]
    rfl
  unfold parse_notion_color
  dsimp only
  rw [h3, pyIntHex_nil]
  cases pyIntHex (pySlice (stripHash s) 0 2) <;>
    cases pyIntHex (pySlice (stripHash s) 2 4) <;> rfl

/-- C4 counterexample: two inputs the claim calls malformed — the
too-long "1E3A8A00" and the 5-character "12345" — are accepted instead of
failing: extra characters past the sixth are ignored, and a lone fifth
character becomes the blue channel. -/
theorem c4_counterexample :
    parse_notion_color (pyOf "1E3A8A00") = some (30, 58, 138)
    ∧ parse_notion_color (pyOf "12345") = some (18, 52, 5) := by
  refine ⟨by decide, by decide⟩

/-- C4 amended: a 6-hex-digit sequence, optionally prefixed with '#',
decodes into three 8-bit channels from consecutive 2-digit pairs, with any
trailing characters ignored.  Not every malformed input fails: over-long
inputs, 5-character hex inputs (the lone fifth character becomes the blue
channel), and inputs whose 2-character slices carry `int(_, 16)`'s sign or
whitespace padding ("+E3A5C8" decodes to (14, 58, 92), " 1E3A8A" to
(1, 227, 168)) are accepted; but every input with fewer than five
characters after the optional '#' does fail, because its third slice is
empty and `int('', 16)` raises ValueError. -/
theorem c4_amended :
    (∀ (a b c d e f : Char) (rest : PyStr),
        isHexDigitChar a = true → isHexDigitChar b = true →
        isHexDigitChar c = true → isHexDigitChar d = true →
        isHexDigitChar e = true → isHexDigitChar f = true →
        parse_notion_color ('#' :: a :: b :: c :: d :: e :: f :: rest)
            = some (((16 * hexDigitVal a + hexDigitVal b : Nat) : Int),
                ((16 * hexDigitVal c + hexDigitVal d : Nat) : Int),
                ((16 * hexDigitVal e + hexDigitVal f : Nat) : Int))
        ∧ parse_notion_color (a :: b :: c :: d :: e :: f :: rest)
            = some (((16 * hexDigitVal a + hexDigitVal b : Nat) : Int),
                ((16 * hexDigitVal c + hexDigitVal d : Nat) : Int),
                ((16 * hexDigitVal e + hexDigitVal f : Nat) : Int))
        ∧ 16 * hexDigitVal a + hexDigitVal b < 256
        ∧ 16 * hexDigitVal c + hexDigitVal d < 256
        ∧ 16 * hexDigitVal e + hexDigitVal f < 256)
    ∧ (∀ s : PyStr, (stripHash s).length ≤ 4 → parse_notion_color s = none)
    ∧ parse_notion_color (pyOf "+E3A5C8") = some (14, 58, 92)
    ∧ parse_notion_color (pyOf " 1E3A8A") = some (1, 227, 168) := by
  refine ⟨?_, ?_, by decide, by decide⟩
  · intro a b c d e f rest ha hb hc hd he hf
    have hane := hex_ne a '#' ha (by decide)
    refine ⟨?_, ?_, ?_, ?_, ?_⟩
    · exact parse_stripped _ a b c d e f rest (by simp [stripHash]) ha hb hc hd he hf
    · exact parse_stripped _ a b c d e f rest (by simp [stripHash, hane]) ha hb hc hd he hf
    · have := hexDigitVal_lt_16 a ha
      have := hexDigitVal_lt_16 b hb
      omega
    · have := hexDigitVal_lt_16 c hc
      have := hexDigitVal_lt_16 d hd
      omega
    · have := hexDigitVal_lt_16 e he
      have := hexDigitVal_lt_16 f hf
      omega
  · intro s hlen
    exact parse_short s hlen

/-- Witness for `c4_amended` at "#1E3A8A", decoding to (30, 58, 138). -/
theorem c4_witness :
    parse_notion_color (pyOf "#1E3A8A") = some (30, 58, 138) :=
  (c4_amended.1 '1' 'E' '3' 'A' '8' 'A' []
    (by decide) (by decide) (by decide) (by decide) (by decide) (by decide)).1

/-- The last file with the given stem in a directory listing (the one
whose dict insertion survives). -/
def lastMatch (t : String) : List TemplateFile → Option TemplateFile
  | [] => none
  | f :: rest =>
    match lastMatch t rest with
    | some g => some g
    | none => if f.stem = t then some f else none

/-- The registry entry the whole scan leaves under stem `t`: the last
matching file of the last location holding one (dict overwrites in
iteration order). -/
def lastEntry (t : String) : List Location → Option TemplateEntry
  | [] => none
  | loc :: rest =>
    match lastEntry t rest with
    | some e => some e
    | none =>
      if loc.present then
        match lastMatch t (globbed loc) with
        | some f => some (entryFor loc f)
        | none => none
      else none

lemma foldl_insert_lookup (loc : Location) (files : List TemplateFile) (r : Registry) (t : String) :
    (files.foldl (fun acc f => insertTemplate acc f.stem (entryFor loc f)) r) t
      = match lastMatch t files with
        | some f => some (entryFor loc f)
        | none => r t := by
  induction files generalizing r with
  | nil => rfl
  | cons f rest ih =>
    simp only [List.foldl_cons, lastMatch]
    rw [ih]
    cases hlm : lastMatch t rest with
    | some g => rfl
    | none =>
      simp only [insertTemplate]
      by_cases he : f.stem = t
      · rw [if_pos he, if_pos he.symm]
      · rw [if_neg he, if_neg (fun h : t = f.stem => he h.symm)]

lemma foldl_scan_lookup (fs : List Location) (r : Registry) (t : String) :
    (fs.foldl scanLocation r) t
      = match lastEntry t fs with
        | some e => some e
        | none => r t := by
  induction fs generalizing r with
  | nil => rfl
  | cons loc rest ih =>
    simp only [List.foldl_cons, lastEntry]
    rw [ih]
    cases hle : lastEntry t rest with
    | some e => rfl
    | none =>
      unfold scanLocation
      by_cases hp : loc.present
      · rw [if_pos hp, if_pos hp, foldl_insert_lookup]
        cases lastMatch t (globbed loc) <;> rfl
      · rw [if_neg hp, if_neg hp]

lemma lastMatch_eq_none (t : String) (l : List TemplateFile) (h : ∀ f ∈ l, f.stem ≠ t) :
    lastMatch t l = none := by
  induction l with
  | nil => rfl
  | cons f rest ih =>
    simp only [lastMatch]
    rw [ih (fun g hg => h g (List.mem_cons_of_mem _ hg))]
    simp [h f (List.mem_cons_self _ _)]

lemma lastMatch_isSome (t : String) (l : List TemplateFile) (h : ∃ f ∈ l, f.stem = t) :
    (lastMatch t l).isSome = true := by
  induction l with
  | nil => simp at h
  | cons f rest ih =>
    simp only [lastMatch]
    cases hlm : lastMatch t rest with
    | some g => rfl
    | none =>
      obtain ⟨g, hg, hgt⟩ := h
      rcases List.mem_cons.mp hg with hgf | hmem
      · subst hgf
        simp [hgt]
      · have hs := ih ⟨g, hmem, hgt⟩
        rw [hlm] at hs
        simp at hs

lemma lastEntry_cons (t : String) (p : Location) (rest : List Location) :
    lastEntry t (p :: rest)
      = match lastEntry t rest with
        | some e => some e
        | none =>
          if p.present then
            match lastMatch t (globbed p) with
            | some f => some (entryFor p f)
            | none => none
          else none := rfl

lemma lastEntry_append (t : String) (pre : List Location) (loc : Location) :
    lastEntry t (pre ++ [loc])
      = match lastEntry t [loc] with
        | some e => some e
        | none => lastEntry t pre := by
  induction pre with
  | nil =>
    simp only [List.nil_append]
    cases lastEntry t [loc] <;> rfl
  | cons p rest ih =>
    rw [List.cons_append, lastEntry_cons t p (rest ++ [loc]), ih, lastEntry_cons t p rest]
    cases lastEntry t [loc] <;> cases lastEntry t rest <;> rfl

/-- C9 (confirmed): every scan rebuilds the registry wholesale from the
current directories — a stem no current file carries is absent afterwards,
whatever earlier scans held — and when a later-iterated directory also
holds a file with a given stem, the scan's entry for that stem is exactly
the one the later directory alone would produce (last writer wins, no
error). -/
theorem c9_registry_rebuild :
    (∀ (fs : List Location) (t : String),
        (∀ loc ∈ fs, loc.present = true → ∀ f ∈ globbed loc, f.stem ≠ t) →
        discover_templates fs t = none)
    ∧ (∀ (pre : List Location) (loc : Location) (t : String),
        loc.present = true → (∃ f ∈ globbed loc, f.stem = t) →
        discover_templates (pre ++ [loc]) t = discover_templates [loc] t) := by
  constructor
  · intro fs t h
    unfold discover_templates
    rw [foldl_scan_lookup]
    have hnone : lastEntry t fs = none := by
      induction fs with
      | nil => rfl
      | cons loc rest ih =>
        simp only [lastEntry]
        rw [ih (fun l hl => h l (List.mem_cons_of_mem _ hl))]
        by_cases hp : loc.present
        · rw [lastMatch_eq_none t _ (h loc (List.mem_cons_self _ _) hp)]
          simp [hp]
        · simp [hp]
    rw [hnone]
  · intro pre loc t hp hex
    unfold discover_templates
    rw [foldl_scan_lookup, foldl_scan_lookup, lastEntry_append]
    have hs := lastMatch_isSome t (globbed loc) hex
    cases hlm : lastMatch t (globbed loc) with
    | none =>
      rw [hlm] at hs
      simp at hs
    | some f =>
      have he : lastEntry t [loc] = some (entryFor loc f) := by
        simp only [lastEntry]
        rw [if_pos hp, hlm]
      rw [he]

/-- Two search locations holding files with the same stem "Deck". -/
def locA : Location :=
  ⟨"common_templates", "C:/Templates/PowerPoint", true, [⟨"Deck", ".pptx"⟩]⟩

/-- The later-iterated location with a colliding "Deck" template. -/
def locB : Location :=
  ⟨"desktop_templates", "C:/Users/u/Desktop/Templates", true, [⟨"Deck", ".pptx"⟩]⟩

/-- Witness for `c9_registry_rebuild`: a removed stem is gone after a
rescan, and the collision on "Deck" resolves to the later location. -/
theorem c9_witness :
    discover_templates [⟨"common_templates", "C:/Templates/PowerPoint", true,
        [⟨"Other", ".pptx"⟩]⟩] "Removed" = none
    ∧ discover_templates [locA, locB] "Deck" = discover_templates [locB] "Deck" :=
  ⟨c9_registry_rebuild.1 _ "Removed" (by decide),
   c9_registry_rebuild.2 [locA] locB "Deck" rfl (by decide)⟩

end PPT
